import Mathlib

/-!
# Verification of the recurrence-expansion / ICS interchange engine

Shallow embedding of `src/utils/dateUtils.ts` (recurring-event expansion,
`getEventsForDay`, `groupEventsByDate`) and the ICS codec
(`exportToICS` / `importFromICS` together with their helpers) of the
myfamplan calendar application.

Modelling conventions:
* A naive local date-time is represented as the number of milliseconds
  since 1970-01-01T00:00:00 (the engine is timezone-naive, so the local
  epoch is an arbitrary but fixed origin).  All date-times handled by the
  claims lie at or after the epoch, so `Nat` is used.
* The JavaScript `Date`/date-fns operations (`isBefore`, `isAfter`,
  `isSameDay`, `startOfDay`, `endOfDay`, `addDays`, `addWeeks`,
  `addMonths`, `addYears`, `setHours`, `setMinutes`, `getHours`,
  `getMinutes`, `differenceInMinutes`, `isWithinInterval`) are embedded
  as arithmetic on this representation; month/year stepping follows
  calendar semantics (day-of-month clamping), implemented with the
  standard civil-from-days / days-from-civil conversions.
* Event records carry their `start`/`end` instants directly (the source
  stores ISO strings and parses them with `parseISO`; `parseISO` and
  `Date.toISOString` are mutually inverse on valid instants, so the
  string round-trip is elided).  Where `toISOString` can throw
  (invalid dates produced by the ICS date parser) the model makes the
  failure explicit with `Except`.
* Wall-clock reads (`new Date()`) and `crypto.randomUUID()` are passed
  in as explicit parameters (`now`, `uuidGen`), the standard purification
  of ambient effects.
-/

namespace MyFamPlan

/-! ## Time primitives (date-fns on millisecond timestamps) -/

/-- Milliseconds in one day. -/
def msPerDay : Nat := 86400000

/-- Milliseconds in one hour. -/
def msPerHour : Nat := 3600000

/-- Milliseconds in one minute. -/
def msPerMinute : Nat := 60000

/-- date-fns `isBefore`. -/
def isBefore (a b : Nat) : Prop := a < b

/-- date-fns `isAfter`. -/
def isAfter (a b : Nat) : Prop := a > b

instance (a b : Nat) : Decidable (isBefore a b) := Nat.decLt a b
instance (a b : Nat) : Decidable (isAfter a b) := Nat.decLt b a

/-- date-fns `isSameDay`: the two instants fall on the same civil day. -/
def isSameDay (a b : Nat) : Prop := a / msPerDay = b / msPerDay

instance (a b : Nat) : Decidable (isSameDay a b) := Nat.decEq _ _

/-- date-fns `isWithinInterval` (inclusive at both ends). -/
def isWithinInterval (t lo hi : Nat) : Prop := lo ≤ t ∧ t ≤ hi

instance (t lo hi : Nat) : Decidable (isWithinInterval t lo hi) := instDecidableAnd

/-- date-fns `startOfDay`. -/
def startOfDay (t : Nat) : Nat := t / msPerDay * msPerDay

/-- date-fns `endOfDay` (23:59:59.999 of the same day). -/
def endOfDay (t : Nat) : Nat := t / msPerDay * msPerDay + (msPerDay - 1)

/-- date-fns `addDays`. -/
def addDays (t : Nat) (n : Nat) : Nat := t + n * msPerDay

/-- date-fns `addWeeks`. -/
def addWeeks (t : Nat) (n : Nat) : Nat := t + n * (7 * msPerDay)

/-- Leap-year test of the Gregorian calendar. -/
def isLeap (y : Nat) : Bool := (y % 4 = 0 && y % 100 ≠ 0) || y % 400 = 0

/-- Number of days in month `m` (1..12) of year `y`. -/
def daysInMonth (y m : Nat) : Nat :=
  if m = 2 then (if isLeap y then 29 else 28)
  else if m = 4 ∨ m = 6 ∨ m = 9 ∨ m = 11 then 30
  else 31

/-- Civil date (year, month 1..12, day 1..31) of a day number counted from
1970-01-01: the standard era/century/year decomposition of the proleptic
Gregorian calendar (extensionally the civil calendar that the JS `Date`
and date-fns operate on), specialised to non-negative day numbers. -/
def civilFromDays (z : Nat) : Nat × Nat × Nat :=
  let days := z + 719468
  let era := days / 146097
  let doe := days % 146097
  let c := (4 * doe + 3) / 146097
  let r := doe - 146097 * c / 4
  let yc := (4 * r + 3) / 1461
  let yoe := 100 * c + yc
  let y := yoe + era * 400
  let doy := r - 1461 * yc / 4
  let mp := (5 * doy + 2) / 153
  let d := doy - (153 * mp + 2) / 5 + 1
  let m := if mp < 10 then mp + 3 else mp - 9
  (if m ≤ 2 then y + 1 else y, m, d)

/-- Day number (counted from 1970-01-01) of a civil date (Howard Hinnant's
`days_from_civil`, valid for dates from 1970 on). -/
def daysFromCivil (y m d : Nat) : Nat :=
  let y' := if m ≤ 2 then y - 1 else y
  let era := y' / 400
  let yoe := y' % 400
  let mp := (m + 9) % 12
  let doy := (153 * mp + 2) / 5 + d - 1
  let doe := yoe * 365 + yoe / 4 - yoe / 100 + doy
  era * 146097 + doe - 719468

/-- date-fns `addMonths`: step the civil month, clamping the day of month
to the length of the target month, keeping the time of day. -/
def addMonths (t : Nat) (n : Nat) : Nat :=
  let dn := t / msPerDay
  let rem := t % msPerDay
  let c := civilFromDays dn
  let total := c.1 * 12 + (c.2.1 - 1) + n
  let y2 := total / 12
  let m2 := total % 12 + 1
  let d2 := min c.2.2 (daysInMonth y2 m2)
  daysFromCivil y2 m2 d2 * msPerDay + rem

/-- date-fns `addYears`, implemented (as in date-fns) as `addMonths` by
`12 * n`. -/
def addYears (t : Nat) (n : Nat) : Nat := addMonths t (12 * n)

/-- JS `getHours`. -/
def getHours (t : Nat) : Nat := t % msPerDay / msPerHour

/-- JS `getMinutes`. -/
def getMinutes (t : Nat) : Nat := t % msPerHour / msPerMinute

/-- date-fns `setHours`: replace the hour, keep day, minutes, seconds, ms. -/
def setHours (t : Nat) (h : Nat) : Nat :=
  t / msPerDay * msPerDay + h * msPerHour + t % msPerHour

/-- date-fns `setMinutes`: replace the minutes, keep everything else. -/
def setMinutes (t : Nat) (m : Nat) : Nat :=
  t / msPerHour * msPerHour + m * msPerMinute + t % msPerMinute

/-- date-fns `differenceInMinutes` (truncated towards zero, as in JS). -/
def differenceInMinutes (a b : Nat) : Int := ((a : Int) - (b : Int)).tdiv 60000

/-- Convenience: timestamp of a civil date-time (used to write concrete
instants in the theorems below). -/
def tsOf (y m d hh mm : Nat) : Nat :=
  daysFromCivil y m d * msPerDay + hh * msPerHour + mm * msPerMinute

/-! ## Data model (`src/types/index.ts`) -/

/-- `EventType`. -/
inductive EventType where
  | event | task | reminder | birthday
deriving DecidableEq, Repr

/-- `RecurrenceType`. -/
inductive RecurrenceType where
  | none | daily | weekly | monthly | yearly
deriving DecidableEq, Repr

/-- `CalendarEvent`.  `start`, `end`, `recurrenceEnd`, `deletedAt`,
`createdAt`, `updatedAt` are ISO timestamp strings in the source and are
represented by their parsed instants. -/
structure CalendarEvent where
  id : String
  title : String
  description : String
  start : Nat
  «end» : Nat
  allDay : Bool
  calendarId : String
  type : EventType
  recurrence : RecurrenceType
  recurrenceEnd : Option Nat
  location : Option String
  isDeleted : Bool
  deletedAt : Option Nat
  createdAt : Nat
  updatedAt : Nat
deriving DecidableEq, Repr

/-- `AgendaGroup`. -/
structure AgendaGroup where
  date : Nat
  label : String
  events : List CalendarEvent
deriving DecidableEq, Repr

/-! ## Recurrence expander (`expandRecurringEvent`) -/

/-- Left-pad the decimal representation of `n` with zeros to width `w`. -/
def padNum (w n : Nat) : String :=
  let s := toString n
  String.mk (List.replicate (w - s.length) '0') ++ s

/-- date-fns `format(date, 'yyyy-MM-dd')`. -/
def formatYMD (t : Nat) : String :=
  let c := civilFromDays (t / msPerDay)
  padNum 4 c.1 ++ "-" ++ padNum 2 c.2.1 ++ "-" ++ padNum 2 c.2.2

/-- The occurrence pushed by the loop body of `expandRecurringEvent`:
`{...event, id: `${event.id}_${format(currentStart,'yyyy-MM-dd')}`,
start: currentStart, end: instanceEnd}` where `instanceEnd` re-applies the
end's hour/minute to the current day and adds `floor(duration / (24*60))`
days. -/
def mkInstance (event : CalendarEvent) (duration : Int) (currentStart : Nat) :
    CalendarEvent :=
  let withTime := setMinutes (setHours currentStart (getHours event.«end»))
    (getMinutes event.«end»)
  let instanceEnd := ((withTime : Int) + duration.fdiv 1440 * (msPerDay : Int)).toNat
  { event with
    id := event.id ++ "_" ++ formatYMD currentStart
    start := currentStart
    «end» := instanceEnd }

/-- The `while` loop of `expandRecurringEvent`.  The first component is the
`instances` array, the second counts executions of the loop body.  `fuel`
is only a structural-recursion device: the source loop is bounded by the
`iteration < 365` guard, and the fuel (366) is never exhausted first. -/
def expandLoop (event : CalendarEvent) (rangeStart rangeEnd recurrenceEnd : Nat)
    (duration : Int) : Nat → Nat → Nat → List CalendarEvent × Nat
  | 0, _, _ => ([], 0)
  | fuel + 1, currentStart, iteration =>
    if isBefore currentStart rangeEnd ∧ isBefore currentStart recurrenceEnd ∧
        iteration < 365 then
      let inst :=
        if isAfter currentStart rangeStart ∨ isSameDay currentStart rangeStart ∨
            isWithinInterval currentStart rangeStart rangeEnd then
          [mkInstance event duration currentStart]
        else []
      let next :=
        match event.recurrence with
        | RecurrenceType.daily =>
            expandLoop event rangeStart rangeEnd recurrenceEnd duration fuel
              (addDays currentStart 1) (iteration + 1)
        | RecurrenceType.weekly =>
            expandLoop event rangeStart rangeEnd recurrenceEnd duration fuel
              (addWeeks currentStart 1) (iteration + 1)
        | RecurrenceType.monthly =>
            expandLoop event rangeStart rangeEnd recurrenceEnd duration fuel
              (addMonths currentStart 1) (iteration + 1)
        | RecurrenceType.yearly =>
            expandLoop event rangeStart rangeEnd recurrenceEnd duration fuel
              (addYears currentStart 1) (iteration + 1)
        | RecurrenceType.none => ([], 0)
      (inst ++ next.1, 1 + next.2)
    else ([], 0)

/-- `event.recurrenceEnd ? parseISO(event.recurrenceEnd) :
addYears(rangeEnd, 1)`. -/
def recurrenceEndOf (event : CalendarEvent) (rangeEnd : Nat) : Nat :=
  match event.recurrenceEnd with
  | some r => r
  | none => addYears rangeEnd 1

/-- `expandRecurringEvent`. -/
def expandRecurringEvent (event : CalendarEvent) (rangeStart rangeEnd : Nat) :
    List CalendarEvent :=
  if event.recurrence = RecurrenceType.none then
    if isWithinInterval event.start rangeStart rangeEnd ∨
        isSameDay event.start rangeStart ∨ isSameDay event.start rangeEnd then
      [event]
    else []
  else
    (expandLoop event rangeStart rangeEnd (recurrenceEndOf event rangeEnd)
      (differenceInMinutes event.«end» event.start) 366 event.start 0).1

/-- Number of executions of the loop body performed by
`expandRecurringEvent` (0 for a non-recurring event, which never enters
the loop). -/
def expandIterations (event : CalendarEvent) (rangeStart rangeEnd : Nat) : Nat :=
  if event.recurrence = RecurrenceType.none then 0
  else
    (expandLoop event rangeStart rangeEnd (recurrenceEndOf event rangeEnd)
      (differenceInMinutes event.«end» event.start) 366 event.start 0).2

/-! ## Day/agenda queries (`getEventsForDay`, `groupEventsByDate`) -/

/-- Insertion step of a stable sort with boolean comparator `le`. -/
def insertBy (le : CalendarEvent → CalendarEvent → Bool) (a : CalendarEvent) :
    List CalendarEvent → List CalendarEvent
  | [] => [a]
  | b :: bs => if le a b then a :: b :: bs else b :: insertBy le a bs

/-- Stable insertion sort with boolean comparator `le` (JS `Array.sort` is
a stable sort; only the induced order matters to the claims). -/
def sortBy (le : CalendarEvent → CalendarEvent → Bool) :
    List CalendarEvent → List CalendarEvent
  | [] => []
  | a :: as' => insertBy le a (sortBy le as')

/-- Comparator of `getEventsForDay`: all-day events first, then by start. -/
def dayEventLE (a b : CalendarEvent) : Bool :=
  if a.allDay && !b.allDay then true
  else if !a.allDay && b.allDay then false
  else a.start ≤ b.start

/-- `getEventsForDay`. -/
def getEventsForDay (events : List CalendarEvent) (date : Nat)
    (visibleCalendarIds : List String) : List CalendarEvent :=
  let dayStart := startOfDay date
  let dayEnd := endOfDay date
  let expandedEvents :=
    (events.filter fun e => !e.isDeleted && visibleCalendarIds.contains e.calendarId)
      |>.flatMap fun event => expandRecurringEvent event dayStart dayEnd
  sortBy dayEventLE
    (expandedEvents.filter fun event =>
      decide (isSameDay event.start date) || decide (isSameDay event.«end» date) ||
        (decide (isBefore event.start dayEnd) && decide (isAfter event.«end» dayStart)))

/-- `groupEventsByDate`.  The Spanish relative-date label
(`getRelativeDateLabel`, presentation only: clock and locale tables) is
abstracted as the `label` parameter. -/
def groupEventsByDate (events : List CalendarEvent) (startDate : Nat) (days : Nat)
    (visibleCalendarIds : List String) (label : Nat → String) : List AgendaGroup :=
  let endDate := addDays startDate days
  let expandedEvents :=
    (events.filter fun e => !e.isDeleted && visibleCalendarIds.contains e.calendarId)
      |>.flatMap fun event => expandRecurringEvent event startDate endDate
  (List.range days).filterMap fun i =>
    let currentDate := addDays startDate i
    let dayEvents :=
      sortBy (fun a b => a.start ≤ b.start)
        (expandedEvents.filter fun event => decide (isSameDay event.start currentDate))
    if dayEvents.isEmpty then none
    else some { date := currentDate, label := label currentDate, events := dayEvents }

/-! ## ICS text escaping (`escapeICSText` / `unescapeICSText`)

JS `String.replace(/pat/g, repl)` with a single-character pattern maps
every occurrence of the character; with a two-character pattern it scans
left to right, replacing non-overlapping occurrences.  Both are modelled
directly on character lists. -/

/-- `replace(/c/g, r)` for a single character `c`. -/
def replaceChar (c : Char) (r : List Char) : List Char → List Char
  | [] => []
  | x :: xs => if x = c then r ++ replaceChar c r xs else x :: replaceChar c r xs

/-- `replace(/ab/g, r)` for a two-character pattern `ab`: left-to-right
non-overlapping scan, as the JS regex engine performs it. -/
def replacePair (a b : Char) (r : Char) : List Char → List Char
  | [] => []
  | [x] => [x]
  | x :: y :: xs =>
    if x = a ∧ y = b then r :: replacePair a b r xs
    else x :: replacePair a b r (y :: xs)

/-- `escapeICSText`: backslash, then semicolon, then comma, then newline. -/
def escapeICSText (text : String) : String :=
  String.mk
    (replaceChar '\n' ['\\', 'n']
      (replaceChar ',' ['\\', ',']
        (replaceChar ';' ['\\', ';']
          (replaceChar '\\' ['\\', '\\'] text.data))))

/-- `unescapeICSText`: `\n`, then `\,`, then `\;`, then `\\`. -/
def unescapeICSText (text : String) : String :=
  String.mk
    (replacePair '\\' '\\' '\\'
      (replacePair '\\' ';' ';'
        (replacePair '\\' ',' ','
          (replacePair '\\' 'n' '\n' text.data))))

/-! ## ICS encoder (`exportToICS`) -/

/-- `formatICSDate`: `yyyyMMdd` for all-day values, `yyyyMMdd'T'HHmmss`
otherwise. -/
def formatICSDate (t : Nat) (allDay : Bool) : String :=
  let c := civilFromDays (t / msPerDay)
  let datePart := padNum 4 c.1 ++ padNum 2 c.2.1 ++ padNum 2 c.2.2
  if allDay then datePart
  else
    datePart ++ "T" ++ padNum 2 (getHours t) ++ padNum 2 (getMinutes t) ++
      padNum 2 (t % msPerMinute / 1000)

/-- `recurrenceToRRule`. -/
def recurrenceToRRule : RecurrenceType → Option String
  | RecurrenceType.daily => some "RRULE:FREQ=DAILY"
  | RecurrenceType.weekly => some "RRULE:FREQ=WEEKLY"
  | RecurrenceType.monthly => some "RRULE:FREQ=MONTHLY"
  | RecurrenceType.yearly => some "RRULE:FREQ=YEARLY"
  | RecurrenceType.none => none

/-- The `DTSTART`/`DTEND` lines of one event (`;VALUE=DATE` date-only
form when all-day). -/
def dtICSLines (event : CalendarEvent) : List String :=
  if event.allDay then
    ["DTSTART;VALUE=DATE:" ++ formatICSDate event.start true,
     "DTEND;VALUE=DATE:" ++ formatICSDate event.«end» true]
  else
    ["DTSTART:" ++ formatICSDate event.start false,
     "DTEND:" ++ formatICSDate event.«end» false]

/-- The `DESCRIPTION` line, pushed only when `event.description` is
truthy (non-empty). -/
def descICSLines (event : CalendarEvent) : List String :=
  if event.description ≠ "" then ["DESCRIPTION:" ++ escapeICSText event.description]
  else []

/-- The `LOCATION` line, pushed only when `event.location` is truthy. -/
def locICSLines (event : CalendarEvent) : List String :=
  match event.location with
  | some l => if l ≠ "" then ["LOCATION:" ++ escapeICSText l] else []
  | none => []

/-- The `RRULE` line, pushed only for a recurring event. -/
def rruleICSLines (event : CalendarEvent) : List String :=
  match recurrenceToRRule event.recurrence with
  | some r => [r]
  | none => []

/-- The lines pushed for one event by the `forEach` body of `exportToICS`
(empty for a soft-deleted event).  `now` is the wall clock read for
`DTSTAMP`. -/
def eventICSLines (now : Nat) (event : CalendarEvent) : List String :=
  if event.isDeleted then []
  else
    ["BEGIN:VEVENT",
     "UID:" ++ event.id ++ "@calendar-clone",
     "DTSTAMP:" ++ formatICSDate now false ++ "Z"] ++
    dtICSLines event ++
    ["SUMMARY:" ++ escapeICSText event.title] ++
    descICSLines event ++ locICSLines event ++ rruleICSLines event ++
    ["END:VEVENT"]

/-- The full line list built by `exportToICS`. -/
def exportICSLines (events : List CalendarEvent) (now : Nat) : List String :=
  ["BEGIN:VCALENDAR", "VERSION:2.0", "PRODID:-//Calendar Clone//ES",
   "CALSCALE:GREGORIAN", "METHOD:PUBLISH"] ++
  events.flatMap (eventICSLines now) ++
  ["END:VCALENDAR"]

/-- `exportToICS`: the lines joined by CRLF. -/
def exportToICS (events : List CalendarEvent) (now : Nat) : String :=
  String.intercalate "\r\n" (exportICSLines events now)

/-- Number of occurrences of the line `t` in a line list. -/
def countStr (t : String) : List String → Nat
  | [] => 0
  | s :: rest => (if s = t then 1 else 0) + countStr t rest

/-! ## ICS decoder (`importFromICS` and helpers) -/

/-- Does `p` occur as a prefix of `l`? -/
def isPre : List Char → List Char → Bool
  | [], _ => true
  | _ :: _, [] => false
  | p :: ps, c :: cs => p = c && isPre ps cs

/-- JS `String.includes`: does `needle` occur somewhere in `hay`? -/
def containsSub (needle : List Char) : List Char → Bool
  | [] => needle.isEmpty
  | c :: cs => isPre needle (c :: cs) || containsSub needle cs

/-- ASCII lower-casing of one character (for the case-insensitive prefix
regex of `parseICSDate`). -/
def charLower (c : Char) : Char :=
  if 'A' ≤ c ∧ c ≤ 'Z' then Char.ofNat (c.toNat + 32) else c

/-- Case-insensitive prefix test. -/
def isPreCI (p l : List Char) : Bool := isPre p (l.map charLower)

/-- The `cleanStr` step of `parseICSDate`: strip a leading
`(DTSTART|DTEND)(;VALUE=DATE)?:` (case-insensitive); if the regex does not
match, the string is unchanged. -/
def stripDTHead (l : List Char) : List Char :=
  if isPreCI "dtstart;value=date:".data l then l.drop 19
  else if isPreCI "dtstart:".data l then l.drop 8
  else if isPreCI "dtend;value=date:".data l then l.drop 17
  else if isPreCI "dtend:".data l then l.drop 6
  else l

/-- Decimal digit value. -/
def digitVal (c : Char) : Nat := c.toNat - '0'.toNat

/-- Run of leading decimal digits. -/
def takeDigits : List Char → List Char
  | [] => []
  | c :: cs => if '0' ≤ c ∧ c ≤ '9' then c :: takeDigits cs else []

/-- JS `parseInt` (decimal): skip leading whitespace, optional sign, then
the maximal run of digits; `none` models `NaN` (no digits). -/
def parseIntJS (l : List Char) : Option Int :=
  let l := l.dropWhile fun c => c = ' ' ∨ c = '\t' ∨ c = '\n' ∨ c = '\r'
  let (sign, rest) : Int × List Char :=
    match l with
    | '-' :: cs => (-1, cs)
    | '+' :: cs => (1, cs)
    | cs => (1, cs)
  match takeDigits rest with
  | [] => none
  | ds => some (sign * (ds.foldl (fun acc c => acc * 10 + digitVal c) 0 : Nat))

/-- Day number of a civil date with arbitrary integer year and day
(`days_from_civil` over `Int`; the month must be in 1..12, which the
`Date` constructor normalisation below guarantees). -/
def daysFromCivilZ (y m d : Int) : Int :=
  let y' := if m ≤ 2 then y - 1 else y
  let era := y'.fdiv 400
  let yoe := y' - era * 400
  let mp := (m + 9) % 12
  let doy := (153 * mp + 2).fdiv 5 + d - 1
  let doe := yoe * 365 + yoe.fdiv 4 - yoe.fdiv 100 + doy
  era * 146097 + doe - 719468

/-- JS `new Date(y, mo, d, h, mi, s)` (0-based month, local time):
two-digit years map to 1900+y, out-of-range fields roll over.  Returns the
millisecond timestamp, `none` for an Invalid Date (any `NaN` argument) —
on which `toISOString` throws.  (Timestamps before 1970 do not occur in
the inputs considered and are clamped by `Int.toNat`.) -/
def mkDateJS (y mo d h mi s : Option Int) : Option Nat :=
  match y, mo, d, h, mi, s with
  | some y, some mo, some d, some h, some mi, some s =>
    let y := if 0 ≤ y ∧ y ≤ 99 then y + 1900 else y
    let ym := y + mo.fdiv 12
    let mn := mo.emod 12
    let dayNum := daysFromCivilZ ym (mn + 1) 1 + (d - 1)
    some (dayNum * (msPerDay : Int) + h * (msPerHour : Int) +
      mi * (msPerMinute : Int) + s * 1000).toNat
  | _, _, _, _, _, _ => none

/-- Remove the first occurrence of `c` (JS `replace('Z', '')` with a
string pattern replaces only the first match). -/
def removeFirst (c : Char) : List Char → List Char
  | [] => []
  | x :: xs => if x = c then xs else x :: removeFirst c xs

/-- JS `split('T')`. -/
def splitOnT (l : List Char) : List (List Char) :=
  match l with
  | [] => [[]]
  | c :: cs =>
    if c = 'T' then [] :: splitOnT cs
    else
      match splitOnT cs with
      | [] => [[c]]
      | p :: ps => (c :: p) :: ps

/-- `parseICSDate`: returns the parsed instant and the all-day flag, or
`none` when JS produces an Invalid Date (whose `toISOString` throws). -/
def parseICSDate (line : List Char) : Option (Nat × Bool) :=
  let cleanStr := stripDTHead line
  if cleanStr.length = 8 then
    -- All-day event: YYYYMMDD
    let y := parseIntJS (cleanStr.take 4)
    let mo := (parseIntJS ((cleanStr.drop 4).take 2)).map (· - 1)
    let d := parseIntJS ((cleanStr.drop 6).take 2)
    (mkDateJS y mo d (some 0) (some 0) (some 0)).map fun t => (t, true)
  else
    -- Full datetime: YYYYMMDDTHHMMSS or ...Z
    let datePart := splitOnT (removeFirst 'Z' cleanStr)
    let dp0 := datePart.headD []
    let y := parseIntJS (dp0.take 4)
    let mo := (parseIntJS ((dp0.drop 4).take 2)).map (· - 1)
    let d := parseIntJS ((dp0.drop 6).take 2)
    let (h, mi, s) :=
      match datePart.drop 1 with
      | [] => (some (0 : Int), some (0 : Int), some (0 : Int))
      | dp1 :: _ =>
        (parseIntJS (dp1.take 2), parseIntJS ((dp1.drop 2).take 2),
         some ((parseIntJS ((dp1.drop 4).take 2)).getD 0))
    (mkDateJS y mo d h mi s).map fun t => (t, false)

/-- `parseRRule`. -/
def parseRRule (rrule : List Char) : RecurrenceType :=
  if containsSub "FREQ=DAILY".data rrule then RecurrenceType.daily
  else if containsSub "FREQ=WEEKLY".data rrule then RecurrenceType.weekly
  else if containsSub "FREQ=MONTHLY".data rrule then RecurrenceType.monthly
  else if containsSub "FREQ=YEARLY".data rrule then RecurrenceType.yearly
  else RecurrenceType.none

/-- `icsContent.split(/\r?\n/)`. -/
def splitICSLines : List Char → List (List Char)
  | [] => [[]]
  | '\r' :: '\n' :: t => [] :: splitICSLines t
  | '\n' :: t => [] :: splitICSLines t
  | c :: t =>
    match splitICSLines t with
    | [] => [[c]]
    | p :: ps => (c :: p) :: ps

/-- Greedily absorb RFC 5545 continuation lines (leading space or tab,
first character stripped) into `cur`. -/
def unfoldGo (cur : List Char) : List (List Char) → List (List Char)
  | [] => [cur]
  | l :: rest =>
    match l with
    | c :: cs =>
      if c = ' ' ∨ c = '\t' then unfoldGo (cur ++ cs) rest
      else cur :: unfoldGo (c :: cs) rest
    | [] => cur :: unfoldGo [] rest

/-- RFC 5545 line unfolding, as performed by the inner `while` of
`importFromICS`. -/
def unfoldLines : List (List Char) → List (List Char)
  | [] => []
  | l :: rest => unfoldGo l rest

/-- The partial record tracked between `BEGIN:VEVENT` and `END:VEVENT`.
The constant seeds (calendarId, type `event`, not-deleted, timestamps) are
re-attached by `finalizeEvent`. -/
structure PartialEvent where
  id : String
  title : Option String := none
  description : Option String := none
  location : Option String := none
  start : Option Nat := none
  «end» : Option Nat := none
  recurrence : RecurrenceType := RecurrenceType.none
deriving DecidableEq, Repr

/-- The truthiness test at `END:VEVENT`:
`currentEvent.title && currentEvent.start && currentEvent.end` (an empty
title string is falsy in JS). -/
def finalizeOk (cur : PartialEvent) : Bool :=
  (match cur.title with
   | some t => t ≠ ""
   | none => false) && cur.start.isSome && cur.«end».isSome

/-- The event pushed at `END:VEVENT`. -/
def finalizeEvent (calendarId : String) (now : Nat) (allDay : Bool)
    (cur : PartialEvent) : CalendarEvent :=
  { id := cur.id
    title := cur.title.getD ""
    description := cur.description.getD ""
    start := cur.start.getD 0
    «end» := cur.«end».getD 0
    allDay := allDay
    calendarId := calendarId
    type := EventType.event
    recurrence := cur.recurrence
    recurrenceEnd := none
    location := cur.location
    isDeleted := false
    deletedAt := none
    createdAt := now
    updatedAt := now }

/-- The per-line state machine of `importFromICS` over the unfolded lines.
`uuidGen k` purifies the `k`-th call of `crypto.randomUUID()`; `now` the
wall clock.  An `Except.error` models the uncaught `RangeError` that
`date.toISOString()` raises on an Invalid Date. -/
def processICSLines (calendarId : String) (now : Nat) (uuidGen : Nat → String) :
    List (List Char) → Option PartialEvent → Bool → Nat →
    Except Unit (List CalendarEvent)
  | [], _, _, _ => Except.ok []
  | line :: rest, cur?, allDay, k =>
    if line = "BEGIN:VEVENT".data then
      processICSLines calendarId now uuidGen rest (some { id := uuidGen k }) false (k + 1)
    else
      match cur? with
      | none => processICSLines calendarId now uuidGen rest none allDay k
      | some cur =>
        if line = "END:VEVENT".data then
          match processICSLines calendarId now uuidGen rest none allDay k with
          | Except.error e => Except.error e
          | Except.ok tail =>
            Except.ok
              ((if finalizeOk cur then [finalizeEvent calendarId now allDay cur] else [])
                ++ tail)
        else if isPre "SUMMARY:".data line then
          processICSLines calendarId now uuidGen rest
            (some { cur with title := some (unescapeICSText (String.mk (line.drop 8))) })
            allDay k
        else if isPre "DESCRIPTION:".data line then
          processICSLines calendarId now uuidGen rest
            (some { cur with
              description := some (unescapeICSText (String.mk (line.drop 12))) })
            allDay k
        else if isPre "LOCATION:".data line then
          processICSLines calendarId now uuidGen rest
            (some { cur with location := some (unescapeICSText (String.mk (line.drop 9))) })
            allDay k
        else if isPre "DTSTART".data line then
          match parseICSDate line with
          | none => Except.error ()
          | some (d, isAllDay) =>
            processICSLines calendarId now uuidGen rest
              (some { cur with start := some d }) isAllDay k
        else if isPre "DTEND".data line then
          match parseICSDate line with
          | none => Except.error ()
          | some (d, _) =>
            processICSLines calendarId now uuidGen rest
              (some { cur with «end» := some d }) allDay k
        else if isPre "RRULE:".data line then
          processICSLines calendarId now uuidGen rest
            (some { cur with recurrence := parseRRule line }) allDay k
        else if isPre "UID:".data line then
          processICSLines calendarId now uuidGen rest
            (some { cur with id := String.mk ((line.drop 4).takeWhile (· ≠ '@')) })
            allDay k
        else processICSLines calendarId now uuidGen rest (some cur) allDay k

/-- `importFromICS`. -/
def importFromICS (icsContent : String) (calendarId : String) (now : Nat)
    (uuidGen : Nat → String) : Except Unit (List CalendarEvent) :=
  processICSLines calendarId now uuidGen
    (unfoldLines (splitICSLines icsContent.data)) none false 0

/-- An event record as the decoder finalizes it: given identity, title,
times and all-day flag, default type `event`, recurrence `none`, not
deleted, no description/location, stamped with the caller's calendar and
clock.  Used to state the expected decoder outputs. -/
def mkImported (id title : String) (start «end» : Nat) (allDay : Bool)
    (calendarId : String) (now : Nat) : CalendarEvent :=
  { id := id, title := title, description := "", start := start,
    «end» := «end», allDay := allDay, calendarId := calendarId,
    type := EventType.event, recurrence := RecurrenceType.none,
    recurrenceEnd := none, location := none, isDeleted := false,
    deletedAt := none, createdAt := now, updatedAt := now }

/-! ## Concrete events used as inputs of the theorems -/

/-- A non-recurring event spanning midnight: 2024-03-10 23:00 to
2024-03-11 01:00. -/
def evMidnight : CalendarEvent :=
  { id := "e1", title := "midnight span", description := "",
    start := tsOf 2024 3 10 23 0, «end» := tsOf 2024 3 11 1 0,
    allDay := false, calendarId := "cal", type := EventType.event,
    recurrence := RecurrenceType.none, recurrenceEnd := none, location := none,
    isDeleted := false, deletedAt := none, createdAt := 0, updatedAt := 0 }

/-- A daily recurring event spanning midnight: 2024-01-01 23:00 to
2024-01-02 01:00 (duration 120 minutes). -/
def evNightly : CalendarEvent :=
  { id := "e2", title := "nightly", description := "",
    start := tsOf 2024 1 1 23 0, «end» := tsOf 2024 1 2 1 0,
    allDay := false, calendarId := "cal", type := EventType.event,
    recurrence := RecurrenceType.daily, recurrenceEnd := none, location := none,
    isDeleted := false, deletedAt := none, createdAt := 0, updatedAt := 0 }

/-- A daily recurring event starting at the very last millisecond of
2024-01-01 (23:59:59.999). -/
def evLastMs : CalendarEvent :=
  { evNightly with
    id := "e3",
    start := tsOf 2024 1 1 23 59 + 59999,
    «end» := tsOf 2024 1 2 0 30 }

/-- A daily recurring event at 09:30–10:00 on 2024-04-05. -/
def evDaily : CalendarEvent :=
  { evNightly with
    id := "e5",
    start := tsOf 2024 4 5 9 30,
    «end» := tsOf 2024 4 5 10 0 }

/-- A soft-deleted non-recurring event. -/
def evDeleted : CalendarEvent :=
  { evMidnight with
    id := "e4",
    recurrence := RecurrenceType.none,
    isDeleted := true,
    deletedAt := some 0 }

end MyFamPlan

namespace MyFamPlan

/-! ## Claim theorems -/

/-- Claim C1 (status: code_bug).  The specification demands that a
non-recurring event be returned exactly when its `[start, end]` interval
overlaps the query range, and in particular that the midnight-spanning
event 2024-03-10T23:00..2024-03-11T01:00 appear both for the day range of
2024-03-10 and for the day range of 2024-03-11.  The code tests only the
event's start (`isWithinInterval(eventStart, ...)`, `isSameDay(eventStart,
...)`) and never looks at `event.end`, so the event is returned for
2024-03-10 but not for 2024-03-11 although the intervals overlap. -/
theorem claim_C1_divergence :
    -- the event interval overlaps the closed day range of 2024-03-11 ...
    (startOfDay (tsOf 2024 3 11 0 0) ≤ evMidnight.«end» ∧
      evMidnight.start ≤ endOfDay (tsOf 2024 3 11 0 0)) ∧
    -- ... and the event is returned for the day range of 2024-03-10 ...
    expandRecurringEvent evMidnight (startOfDay (tsOf 2024 3 10 0 0))
      (endOfDay (tsOf 2024 3 10 0 0)) = [evMidnight] ∧
    -- ... but not for the day range of 2024-03-11, contradicting the claim.
    expandRecurringEvent evMidnight (startOfDay (tsOf 2024 3 11 0 0))
      (endOfDay (tsOf 2024 3 11 0 0)) = [] := by
  decide

/-- Claim C2 (status: code_bug).  The specification demands that every
emitted occurrence of a recurring event preserve the original duration
`end - start`.  The occurrence end is computed by re-applying the original
end's hour/minute to the current day and adding
`floor(duration / (24*60))` days; for an event whose end has an earlier
time of day than its start (a midnight-spanning event) this lands one day
short: the single occurrence of the 120-minute nightly event has
`end - start = -79200000` ms (end 22 hours before start) instead of
`7200000` ms. -/
theorem claim_C2_divergence :
    (evNightly.«end» : Int) - (evNightly.start : Int) = 7200000 ∧
    (expandRecurringEvent evNightly (startOfDay evNightly.start)
        (endOfDay evNightly.start)).map
      (fun e => ((e.«end» : Int) - (e.start : Int))) = [-79200000] ∧
    (expandRecurringEvent evNightly (startOfDay evNightly.start)
        (endOfDay evNightly.start)).map (fun e => e.start) = [evNightly.start] := by
  decide

/-- Claim C3 (status: code_bug).  The specification demands
`unescape(escape(s)) = s` for every string.  For `s` = backslash followed
by the letter `n`, escaping yields `\\n` (three characters) and the
decoder's first pass `replace(/\\n/g, '\n')` wrongly pairs the second
backslash with the letter `n`, producing backslash followed by a newline
character — a different string. -/
theorem claim_C3_divergence :
    unescapeICSText (escapeICSText "\\n") ≠ "\\n" ∧
    unescapeICSText (escapeICSText "\\n") = "\\\n" := by
  decide

/-- Claim C4 (status: code_bug).  The specification demands that the
decoder run to completion on every input, malformed lines degrading
locally.  A `DTSTART` line whose 8-character payload is not numeric makes
`parseICSDate` build an Invalid Date (`parseInt` returns `NaN`), and
`date.toISOString()` then raises an uncaught `RangeError`, aborting the
whole import. -/
theorem claim_C4_divergence :
    importFromICS "BEGIN:VEVENT\r\nDTSTART:ABCDEFGH\r\nEND:VEVENT" "family" 0
      (fun _ => "uuid-0") = Except.error () := by
  rfl

/-- The loop body of `expandRecurringEvent` runs at most `365 - iteration`
more times when entered at counter value `iteration`. -/
theorem expandLoop_count_le (event : CalendarEvent)
    (rangeStart rangeEnd recEnd : Nat) (duration : Int) :
    ∀ fuel currentStart iteration,
      (expandLoop event rangeStart rangeEnd recEnd duration fuel
        currentStart iteration).2 ≤ 365 - iteration := by
  intro fuel
  induction fuel with
  | zero => intro cs it; simp [expandLoop]
  | succ n ih =>
    intro cs it
    simp only [expandLoop]
    split
    · next h =>
      obtain ⟨-, -, h3⟩ := h
      cases hrec : event.recurrence <;>
        simp only [hrec] <;>
        [skip; have := ih (addDays cs 1) (it + 1);
         have := ih (addWeeks cs 1) (it + 1);
         have := ih (addMonths cs 1) (it + 1);
         have := ih (addYears cs 1) (it + 1)] <;>
        omega
    · simp

/-- Each loop-body execution appends at most one occurrence. -/
theorem expandLoop_length_le_count (event : CalendarEvent)
    (rangeStart rangeEnd recEnd : Nat) (duration : Int) :
    ∀ fuel currentStart iteration,
      (expandLoop event rangeStart rangeEnd recEnd duration fuel
        currentStart iteration).1.length ≤
      (expandLoop event rangeStart rangeEnd recEnd duration fuel
        currentStart iteration).2 := by
  intro fuel
  induction fuel with
  | zero => intro cs it; simp [expandLoop]
  | succ n ih =>
    intro cs it
    simp only [expandLoop]
    split
    · next h =>
      have hb : (if isAfter cs rangeStart ∨ isSameDay cs rangeStart ∨
          isWithinInterval cs rangeStart rangeEnd then
            [mkInstance event duration cs] else []).length ≤ 1 := by
        split <;> simp
      cases hrec : event.recurrence <;>
        simp only [hrec, List.length_append, List.length_nil] <;>
        [skip; have := ih (addDays cs 1) (it + 1);
         have := ih (addWeeks cs 1) (it + 1);
         have := ih (addMonths cs 1) (it + 1);
         have := ih (addYears cs 1) (it + 1)] <;>
        omega
    · simp

/-- Claim C6 (status: confirmed).  For every event and range the expansion
loop body executes at most 365 times (`expandIterations` counts the body
executions of the very loop that produces `expandRecurringEvent`'s
result), and consequently at most 365 occurrences are produced; the
functions are total, so termination holds by construction even with
`recurrenceEnd` absent or 10,000 years in the future. -/
theorem claim_C6_iteration_cap (event : CalendarEvent) (rangeStart rangeEnd : Nat) :
    expandIterations event rangeStart rangeEnd ≤ 365 ∧
    (expandRecurringEvent event rangeStart rangeEnd).length ≤ 365 := by
  unfold expandIterations expandRecurringEvent
  by_cases h : event.recurrence = RecurrenceType.none
  · rw [if_pos h, if_pos h]
    refine ⟨Nat.zero_le _, ?_⟩
    split <;> simp
  · rw [if_neg h, if_neg h]
    have h1 := expandLoop_length_le_count event rangeStart rangeEnd
      (recurrenceEndOf event rangeEnd)
      (differenceInMinutes event.«end» event.start) 366 event.start 0
    have h2 := expandLoop_count_le event rangeStart rangeEnd
      (recurrenceEndOf event rangeEnd)
      (differenceInMinutes event.«end» event.start) 366 event.start 0
    omega

/-- Claim C10 (status: confirmed).  `expandRecurringEvent` never inspects
`isDeleted`: a non-recurring event whose start lies in the range is
returned unconditionally (the hypotheses say nothing about `isDeleted`,
and the witness instantiates this with a soft-deleted event).  Exclusion
of soft-deleted events and of events on non-visible calendars happens in
the callers `getEventsForDay` and `groupEventsByDate`, which filter the
list before expanding: a deleted event, or one whose calendar is not
visible, contributes nothing to their output. -/
theorem claim_C10_filter_in_callers (ev : CalendarEvent) (rs re date : Nat)
    (vis : List String) (h1 : ev.recurrence = RecurrenceType.none)
    (h2 : rs ≤ ev.start) (h3 : ev.start ≤ re) :
    expandRecurringEvent ev rs re = [ev] ∧
    (ev.isDeleted = true → getEventsForDay [ev] date vis = []) ∧
    (ev.calendarId ∉ vis → getEventsForDay [ev] date vis = []) ∧
    (ev.isDeleted = true →
      ∀ n lbl, groupEventsByDate [ev] date n vis lbl = []) := by
  refine ⟨?_, ?_, ?_, ?_⟩
  · unfold expandRecurringEvent
    rw [if_pos h1, if_pos (Or.inl ⟨h2, h3⟩)]
  · intro hd
    unfold getEventsForDay
    simp [hd, sortBy]
  · intro hv
    unfold getEventsForDay
    simp [hv, sortBy]
  · intro hd n lbl
    unfold groupEventsByDate
    simp [hd, sortBy, List.filterMap_eq_nil_iff]

/-- Two strings whose first characters differ are different. -/
theorem ne_of_headc {c : Char} {s t : String} (hs : s.data.head? = some c)
    (ht : t.data.head? ≠ some c) : s ≠ t := fun e => ht (e ▸ hs)

/-- `countStr` distributes over append. -/
theorem countStr_append (t : String) : ∀ l₁ l₂ : List String,
    countStr t (l₁ ++ l₂) = countStr t l₁ + countStr t l₂ := by
  intro l₁ l₂
  induction l₁ with
  | nil => simp [countStr]
  | cons a l ih =>
    show (if a = t then 1 else 0) + countStr t (l ++ l₂) = _
    rw [ih]
    show _ = (if a = t then 1 else 0) + countStr t l + countStr t l₂
    omega

/-- The `DTSTART`/`DTEND` lines all start with `D`. -/
theorem countStr_dtICSLines {t : String} (ht : t.data.head? ≠ some 'D')
    (e : CalendarEvent) : countStr t (dtICSLines e) = 0 := by
  unfold dtICSLines
  split
  · have h1 : ("DTSTART;VALUE=DATE:" ++ formatICSDate e.start true : String) ≠ t :=
      ne_of_headc rfl ht
    have h2 : ("DTEND;VALUE=DATE:" ++ formatICSDate e.«end» true : String) ≠ t :=
      ne_of_headc rfl ht
    simp [countStr, h1, h2]
  · have h1 : ("DTSTART:" ++ formatICSDate e.start false : String) ≠ t :=
      ne_of_headc rfl ht
    have h2 : ("DTEND:" ++ formatICSDate e.«end» false : String) ≠ t :=
      ne_of_headc rfl ht
    simp [countStr, h1, h2]

/-- The optional `DESCRIPTION` line starts with `D`. -/
theorem countStr_descICSLines {t : String} (ht : t.data.head? ≠ some 'D')
    (e : CalendarEvent) : countStr t (descICSLines e) = 0 := by
  unfold descICSLines
  split
  · have h1 : ("DESCRIPTION:" ++ escapeICSText e.description : String) ≠ t :=
      ne_of_headc rfl ht
    simp [countStr, h1]
  · rfl

/-- The optional `LOCATION` line starts with `L`. -/
theorem countStr_locICSLines {t : String} (ht : t.data.head? ≠ some 'L')
    (e : CalendarEvent) : countStr t (locICSLines e) = 0 := by
  unfold locICSLines
  cases hl : e.location with
  | none => rfl
  | some l =>
    show countStr t (if l ≠ "" then ["LOCATION:" ++ escapeICSText l] else []) = 0
    split
    · have h1 : ("LOCATION:" ++ escapeICSText l : String) ≠ t := ne_of_headc rfl ht
      simp [countStr, h1]
    · rfl

/-- The optional `RRULE` line starts with `R`. -/
theorem countStr_rruleICSLines {t : String} (ht : t.data.head? ≠ some 'R')
    (e : CalendarEvent) : countStr t (rruleICSLines e) = 0 := by
  have hr : ∀ s : String, s.data.head? = some 'R' →
      countStr t [s] = 0 := by
    intro s hs
    simp [countStr, ne_of_headc hs ht]
  unfold rruleICSLines recurrenceToRRule
  cases e.recurrence
  · rfl
  · exact hr _ rfl
  · exact hr _ rfl
  · exact hr _ rfl
  · exact hr _ rfl

/-- Counting a target line in one event block: the count is 1 for the
block's own `BEGIN:VEVENT`/`END:VEVENT` markers and 0 for every line kind
whose head character differs from the target's. -/
theorem countStr_eventICSLines (now : Nat) (e : CalendarEvent) {t : String}
    (hU : t.data.head? ≠ some 'U') (hD : t.data.head? ≠ some 'D')
    (hS : t.data.head? ≠ some 'S') (hL : t.data.head? ≠ some 'L')
    (hR : t.data.head? ≠ some 'R') :
    countStr t (eventICSLines now e) =
      if e.isDeleted then 0
      else ((if ("BEGIN:VEVENT" : String) = t then 1 else 0) +
        (if ("END:VEVENT" : String) = t then 1 else 0)) := by
  unfold eventICSLines
  split
  · rfl
  · have huid : ("UID:" ++ e.id ++ "@calendar-clone" : String) ≠ t :=
      ne_of_headc rfl hU
    have hstamp : ("DTSTAMP:" ++ formatICSDate now false ++ "Z" : String) ≠ t :=
      ne_of_headc rfl hD
    have hsum : ("SUMMARY:" ++ escapeICSText e.title : String) ≠ t :=
      ne_of_headc rfl hS
    rw [countStr_append, countStr_append, countStr_append, countStr_append,
      countStr_append, countStr_append, countStr_dtICSLines hD,
      countStr_descICSLines hD, countStr_locICSLines hL, countStr_rruleICSLines hR]
    simp [countStr, huid, hstamp, hsum]

/-- Per-event line blocks: `BEGIN:VEVENT` count over the whole event list. -/
theorem countStr_flatMap_begin (now : Nat) : ∀ evs : List CalendarEvent,
    countStr "BEGIN:VEVENT" (evs.flatMap (eventICSLines now)) =
      (evs.filter fun e => !e.isDeleted).length := by
  intro evs
  induction evs with
  | nil => rfl
  | cons e rest ih =>
    rw [List.flatMap_cons, countStr_append,
      countStr_eventICSLines now e (by decide) (by decide) (by decide) (by decide)
        (by decide), ih, List.filter_cons]
    cases h : e.isDeleted <;> simp [Nat.add_comm]

/-- Per-event line blocks: `END:VEVENT` count over the whole event list. -/
theorem countStr_flatMap_endv (now : Nat) : ∀ evs : List CalendarEvent,
    countStr "END:VEVENT" (evs.flatMap (eventICSLines now)) =
      (evs.filter fun e => !e.isDeleted).length := by
  intro evs
  induction evs with
  | nil => rfl
  | cons e rest ih =>
    rw [List.flatMap_cons, countStr_append,
      countStr_eventICSLines now e (by decide) (by decide) (by decide) (by decide)
        (by decide), ih, List.filter_cons]
    cases h : e.isDeleted <;> simp [Nat.add_comm]

/-- Per-event line blocks never contain the `VCALENDAR` wrapper lines. -/
theorem countStr_flatMap_other (now : Nat) {t : String}
    (h1 : t ≠ "BEGIN:VEVENT") (h2 : t ≠ "END:VEVENT")
    (hU : t.data.head? ≠ some 'U') (hD : t.data.head? ≠ some 'D')
    (hS : t.data.head? ≠ some 'S') (hL : t.data.head? ≠ some 'L')
    (hR : t.data.head? ≠ some 'R') : ∀ evs : List CalendarEvent,
    countStr t (evs.flatMap (eventICSLines now)) = 0 := by
  intro evs
  induction evs with
  | nil => rfl
  | cons e rest ih =>
    rw [List.flatMap_cons, countStr_append,
      countStr_eventICSLines now e hU hD hS hL hR, ih]
    simp [Ne.symm h1, Ne.symm h2]

/-- Claim C9 (status: confirmed).  `exportToICS` emits exactly one
`BEGIN:VEVENT`/`END:VEVENT` pair per non-deleted event and none for
soft-deleted events, inside a single `VCALENDAR` wrapper (exactly one
`BEGIN:VCALENDAR`, which is the first line, and one `END:VCALENDAR`,
which is the last), and the output string is the lines joined by CRLF. -/
theorem claim_C9_export_structure (events : List CalendarEvent) (now : Nat) :
    exportToICS events now = String.intercalate "\r\n" (exportICSLines events now) ∧
    countStr "BEGIN:VEVENT" (exportICSLines events now) =
      (events.filter fun e => !e.isDeleted).length ∧
    countStr "END:VEVENT" (exportICSLines events now) =
      (events.filter fun e => !e.isDeleted).length ∧
    countStr "BEGIN:VCALENDAR" (exportICSLines events now) = 1 ∧
    countStr "END:VCALENDAR" (exportICSLines events now) = 1 ∧
    (exportICSLines events now).head? = some "BEGIN:VCALENDAR" ∧
    (exportICSLines events now).getLast? = some "END:VCALENDAR" := by
  refine ⟨rfl, ?_, ?_, ?_, ?_, rfl, ?_⟩
  · unfold exportICSLines
    rw [countStr_append, countStr_append, countStr_flatMap_begin]
    simp [countStr]
  · unfold exportICSLines
    rw [countStr_append, countStr_append, countStr_flatMap_endv]
    simp [countStr]
  · unfold exportICSLines
    rw [countStr_append, countStr_append,
      countStr_flatMap_other now (by decide) (by decide) (by decide) (by decide)
        (by decide) (by decide) (by decide)]
    rfl
  · unfold exportICSLines
    rw [countStr_append, countStr_append,
      countStr_flatMap_other now (by decide) (by decide) (by decide) (by decide)
        (by decide) (by decide) (by decide)]
    rfl
  · unfold exportICSLines
    exact List.getLast?_concat _

/-- Claim C7 (status: confirmed).  The decoder performs RFC 5545 line
unfolding before property parsing: `importFromICS` is the per-line state
machine applied to `unfoldLines` of the physical lines; a physical line
beginning with a space or a tab is concatenated onto the previous line
with the single leading whitespace character stripped; and a `SUMMARY`
split over two physical lines decodes to the unbroken concatenation. -/
theorem claim_C7_line_unfolding :
    (∀ (text calendarId : String) (now : Nat) (uuidGen : Nat → String),
      importFromICS text calendarId now uuidGen =
        processICSLines calendarId now uuidGen
          (unfoldLines (splitICSLines text.data)) none false 0) ∧
    (∀ (a b : List Char), unfoldLines [a, ' ' :: b] = [a ++ b]) ∧
    (∀ (a b : List Char), unfoldLines [a, '\t' :: b] = [a ++ b]) ∧
    (∀ (calendarId : String) (now : Nat) (uuidGen : Nat → String),
      importFromICS
        "BEGIN:VEVENT\r\nSUMMARY:Hello Wo\r\n rld Meeting\r\nDTSTART:20240405T090000\r\nDTEND:20240405T100000\r\nEND:VEVENT"
        calendarId now uuidGen =
      Except.ok [mkImported (uuidGen 0) "Hello World Meeting"
        (tsOf 2024 4 5 9 0) (tsOf 2024 4 5 10 0) false calendarId now]) := by
  exact ⟨fun _ _ _ _ => rfl, fun a b => rfl, fun a b => rfl, fun c n g => rfl⟩

/-- Every event finalized on the success path of the decoder carries the
`BEGIN:VEVENT` seeds (type `event`, not deleted, the caller's calendar id
and clock, no recurrence bound) and a non-empty title (the `END:VEVENT`
truthiness check). -/
theorem processICSLines_ok_inv (calendarId : String) (now : Nat) (uuidGen : Nat → String) :
    ∀ (lines : List (List Char)) (cur? : Option PartialEvent) (allDay : Bool) (k : Nat)
      (evs : List CalendarEvent),
      processICSLines calendarId now uuidGen lines cur? allDay k = Except.ok evs →
      ∀ e ∈ evs, e.type = EventType.event ∧ e.isDeleted = false ∧ e.title ≠ "" ∧
        e.calendarId = calendarId ∧ e.createdAt = now ∧ e.updatedAt = now ∧
        e.recurrenceEnd = none := by
  intro lines
  induction lines with
  | nil =>
    intro cur? allDay k evs h e he
    simp only [processICSLines, Except.ok.injEq] at h
    subst h
    cases he
  | cons line rest ih =>
    intro cur? allDay k evs h e he
    simp only [processICSLines] at h
    split at h
    · exact ih _ _ _ _ h e he
    · split at h
      · exact ih _ _ _ _ h e he
      · next cur =>
        split at h
        · -- END:VEVENT: the finalized event (if kept) satisfies the seeds
          split at h
          · exact absurd h (by simp)
          · next tail htail =>
            simp only [Except.ok.injEq] at h
            subst h
            rcases List.mem_append.mp he with hin | hin
            · split at hin
              · next hok =>
                rcases List.mem_singleton.mp hin with rfl
                unfold finalizeOk at hok
                simp only [Bool.and_eq_true] at hok
                obtain ⟨⟨ht, -⟩, -⟩ := hok
                refine ⟨rfl, rfl, ?_, rfl, rfl, rfl, rfl⟩
                unfold finalizeEvent
                cases hcur : cur.title with
                | none => rw [hcur] at ht; simp at ht
                | some t0 =>
                  rw [hcur] at ht
                  simp only [decide_eq_true_eq] at ht
                  simpa [hcur] using ht
              · cases hin
            · exact ih _ _ _ _ htail e hin
        · split at h
          · exact ih _ _ _ _ h e he
          · split at h
            · exact ih _ _ _ _ h e he
            · split at h
              · exact ih _ _ _ _ h e he
              · split at h
                · -- DTSTART: an unparseable date aborts, never finalizes
                  split at h
                  · exact absurd h (by simp)
                  · exact ih _ _ _ _ h e he
                · split at h
                  · -- DTEND likewise
                    split at h
                    · exact absurd h (by simp)
                    · exact ih _ _ _ _ h e he
                  · split at h
                    · exact ih _ _ _ _ h e he
                    · split at h
                      · exact ih _ _ _ _ h e he
                      · exact ih _ _ _ _ h e he

/-- Claim C8 (status: confirmed).  `BEGIN:VEVENT` seeds a fresh partial
record (fresh uuid identity, type `event`, recurrence `none`, not
deleted, caller clock timestamps); `END:VEVENT` appends it exactly when
title, start and end were all parsed; blocks missing any of the three are
silently dropped (`Except.ok []`, no error) and the rest of the file
still parses; and every event on the success path carries the seeded
defaults and a non-empty title. -/
theorem claim_C8_vevent_lifecycle :
    (∀ (calendarId : String) (now : Nat) (uuidGen : Nat → String),
      importFromICS
        "BEGIN:VEVENT\r\nSUMMARY:Team Sync\r\nDTSTART:20240405T090000\r\nDTEND:20240405T100000\r\nEND:VEVENT"
        calendarId now uuidGen =
        Except.ok [mkImported (uuidGen 0) "Team Sync"
          (tsOf 2024 4 5 9 0) (tsOf 2024 4 5 10 0) false calendarId now] ∧
      importFromICS
        "BEGIN:VEVENT\r\nDTSTART:20240405T090000\r\nDTEND:20240405T100000\r\nEND:VEVENT"
        calendarId now uuidGen = Except.ok [] ∧
      importFromICS
        "BEGIN:VEVENT\r\nSUMMARY:Solo\r\nDTEND:20240405T100000\r\nEND:VEVENT"
        calendarId now uuidGen = Except.ok [] ∧
      importFromICS
        "BEGIN:VEVENT\r\nSUMMARY:Solo\r\nDTSTART:20240405T090000\r\nEND:VEVENT"
        calendarId now uuidGen = Except.ok [] ∧
      importFromICS
        "BEGIN:VEVENT\r\nSUMMARY:Broken\r\nEND:VEVENT\r\nBEGIN:VEVENT\r\nSUMMARY:Good\r\nDTSTART:20240405T090000\r\nDTEND:20240405T100000\r\nEND:VEVENT"
        calendarId now uuidGen =
        Except.ok [mkImported (uuidGen 1) "Good"
          (tsOf 2024 4 5 9 0) (tsOf 2024 4 5 10 0) false calendarId now]) ∧
    (∀ (text calendarId : String) (now : Nat) (uuidGen : Nat → String)
      (evs : List CalendarEvent),
      importFromICS text calendarId now uuidGen = Except.ok evs →
      ∀ e ∈ evs, e.type = EventType.event ∧ e.isDeleted = false ∧ e.title ≠ "" ∧
        e.calendarId = calendarId ∧ e.createdAt = now ∧ e.updatedAt = now ∧
        e.recurrenceEnd = none) := by
  refine ⟨fun c n g => ⟨rfl, rfl, rfl, rfl, rfl⟩, ?_⟩
  intro text calendarId now uuidGen evs h
  exact processICSLines_ok_inv calendarId now uuidGen _ none false 0 evs h

/-- Witness for C8: the invariant instantiated on a concrete import whose
success is discharged by computation. -/
theorem claim_C8_witness :
    (mkImported "u0" "Team Sync" (tsOf 2024 4 5 9 0) (tsOf 2024 4 5 10 0)
        false "fam" 42).type = EventType.event ∧
    (mkImported "u0" "Team Sync" (tsOf 2024 4 5 9 0) (tsOf 2024 4 5 10 0)
        false "fam" 42).isDeleted = false ∧
    (mkImported "u0" "Team Sync" (tsOf 2024 4 5 9 0) (tsOf 2024 4 5 10 0)
        false "fam" 42).title ≠ "" ∧
    (mkImported "u0" "Team Sync" (tsOf 2024 4 5 9 0) (tsOf 2024 4 5 10 0)
        false "fam" 42).calendarId = "fam" ∧
    (mkImported "u0" "Team Sync" (tsOf 2024 4 5 9 0) (tsOf 2024 4 5 10 0)
        false "fam" 42).createdAt = 42 ∧
    (mkImported "u0" "Team Sync" (tsOf 2024 4 5 9 0) (tsOf 2024 4 5 10 0)
        false "fam" 42).updatedAt = 42 ∧
    (mkImported "u0" "Team Sync" (tsOf 2024 4 5 9 0) (tsOf 2024 4 5 10 0)
        false "fam" 42).recurrenceEnd = none :=
  claim_C8_vevent_lifecycle.2
    "BEGIN:VEVENT\r\nSUMMARY:Team Sync\r\nDTSTART:20240405T090000\r\nDTEND:20240405T100000\r\nEND:VEVENT"
    "fam" 42 (fun _ => "u0") _ rfl _ (List.mem_singleton.mpr rfl)

/-- The civil conversion is well-formed and inverts `daysFromCivil`:
month in 1..12, day in 1..31, year at least 1600, and converting the
civil triple back yields the original day number. -/
theorem civilFromDays_spec (z : Nat) :
    1600 ≤ (civilFromDays z).1 ∧
    1 ≤ (civilFromDays z).2.1 ∧ (civilFromDays z).2.1 ≤ 12 ∧
    1 ≤ (civilFromDays z).2.2 ∧ (civilFromDays z).2.2 ≤ 31 ∧
    daysFromCivil (civilFromDays z).1 (civilFromDays z).2.1 (civilFromDays z).2.2 = z := by
  simp only [civilFromDays, daysFromCivil]
  generalize hera : (z + 719468) / 146097 = era
  generalize hdoe : (z + 719468) % 146097 = doe
  generalize hc : (4 * doe + 3) / 146097 = c
  generalize hr : doe - 146097 * c / 4 = r
  generalize hyc : (4 * r + 3) / 1461 = yc
  generalize hdoy : r - 1461 * yc / 4 = doy
  generalize hmp : (5 * doy + 2) / 153 = mp
  have hdoelt : doe < 146097 := by omega
  have h1 : 146097 * c / 4 ≤ doe ∧ c ≤ 3 ∧ r ≤ 36524 := by omega
  have h2 : 1461 * yc / 4 ≤ r ∧ yc ≤ 99 ∧ doy ≤ 365 := by omega
  have h3 : 365 * (100 * c + yc) + (100 * c + yc) / 4 - (100 * c + yc) / 100 =
      146097 * c / 4 + 1461 * yc / 4 := by
    rcases (by omega : c = 0 ∨ c = 1 ∨ c = 2 ∨ c = 3) with rfl | rfl | rfl | rfl <;> omega
  have hmple : mp ≤ 11 := by omega
  have hmp5 : (153 * mp + 2) / 5 ≤ doy ∧ doy - (153 * mp + 2) / 5 + 1 ≤ 31 := by omega
  have hmod : (100 * c + yc + era * 400) % 400 = 100 * c + yc := by omega
  have hdiv : (100 * c + yc + era * 400) / 400 = era := by omega
  rcases Nat.lt_or_ge mp 10 with hmp10 | hmp10
  · rw [if_pos hmp10, if_neg (show ¬ mp + 3 ≤ 2 by omega),
      if_neg (show ¬ mp + 3 ≤ 2 by omega)]
    have hmp12 : (mp + 3 + 9) % 12 = mp := by omega
    rw [hmp12, hmod, hdiv]
    refine ⟨by omega, by omega, by omega, by omega, by omega, ?_⟩
    omega
  · rw [if_neg (show ¬ mp < 10 by omega), if_pos (show mp - 9 ≤ 2 by omega),
      if_pos (show mp - 9 ≤ 2 by omega), Nat.add_sub_cancel]
    have hmp12 : (mp - 9 + 9) % 12 = mp := by omega
    rw [hmp12, hmod, hdiv]
    refine ⟨by omega, by omega, by omega, by omega, by omega, ?_⟩
    omega

/-- Every month has at least 28 days. -/
theorem daysInMonth_ge (y m : Nat) : 28 ≤ daysInMonth y m := by
  unfold daysInMonth
  split_ifs <;> omega

/-- Moving to the same month one year later (day clamped by at most 3)
never decreases the day number. -/
theorem daysFromCivil_year_step {y m dd d2 : Nat} (hy : 1 ≤ y) (hm1 : 1 ≤ m)
    (hm2 : m ≤ 12) (hdd : dd ≤ 31) (hd21 : 1 ≤ d2) (hd2 : dd ≤ d2 + 3) :
    daysFromCivil y m dd ≤ daysFromCivil (y + 1) m d2 := by
  simp only [daysFromCivil]
  split_ifs <;> omega

/-- `addYears` by one year never goes backwards (the bound the expander
needs for its implicit recurrence cap). -/
theorem le_addYears_one (t : Nat) : t ≤ addYears t 1 := by
  simp only [addYears, addMonths]
  have hspec := civilFromDays_spec (t / msPerDay)
  rcases hcd : civilFromDays (t / msPerDay) with ⟨y, m, dd⟩
  rw [hcd] at hspec
  dsimp only at hspec ⊢
  obtain ⟨hy1600, hm1, hm2, hdd1, hdd2, hback⟩ := hspec
  have hy2 : (y * 12 + (m - 1) + 12 * 1) / 12 = y + 1 := by omega
  have hm2' : (y * 12 + (m - 1) + 12 * 1) % 12 + 1 = m := by omega
  rw [hy2, hm2']
  have hy1 : 1 ≤ y := by omega
  have hstep := @daysFromCivil_year_step y m dd
    (min dd (daysInMonth (y + 1) m)) hy1 hm1 hm2 hdd2
    (by have := daysInMonth_ge (y + 1) m; omega)
    (by have := daysInMonth_ge (y + 1) m; omega)
  rw [hback] at hstep
  have hmod := Nat.mod_lt t (show 0 < msPerDay by decide)
  have hdivmul := Nat.div_add_mod t msPerDay
  unfold msPerDay at *
  omega



/-- The occurrence pushed by the loop starts at the current instant. -/
theorem mkInstance_start (event : CalendarEvent) (duration : Int) (cs : Nat) :
    (mkInstance event duration cs).start = cs := rfl

/-- The loop returns nothing as soon as its guard fails. -/
theorem expandLoop_stop (event : CalendarEvent) (rS rE rcE : Nat) (dur : Int)
    (fuel cs it : Nat) (h : ¬ (isBefore cs rE ∧ isBefore cs rcE ∧ it < 365)) :
    expandLoop event rS rE rcE dur fuel cs it = ([], 0) := by
  cases fuel with
  | zero => rfl
  | succ n =>
    simp only [expandLoop]
    rw [if_neg h]

/-- One iteration of the loop for a daily event whose guard holds and
whose current start is emitted. -/
theorem expandLoop_daily_step (event : CalendarEvent)
    (hrec : event.recurrence = RecurrenceType.daily) (rS rE rcE : Nat) (dur : Int)
    (fuel cs it : Nat) (hlt : isBefore cs rE) (hlt2 : isBefore cs rcE) (hit : it < 365)
    (hemit : isAfter cs rS ∨ isSameDay cs rS ∨ isWithinInterval cs rS rE) :
    expandLoop event rS rE rcE dur (fuel + 1) cs it =
      (mkInstance event dur cs ::
        (expandLoop event rS rE rcE dur fuel (cs + msPerDay) (it + 1)).1,
       1 + (expandLoop event rS rE rcE dur fuel (cs + msPerDay) (it + 1)).2) := by
  simp only [expandLoop]
  rw [if_pos ⟨hlt, hlt2, hit⟩, if_pos hemit]
  simp only [hrec, addDays, one_mul, List.singleton_append]

/-- Closed form of the daily loop: while consecutive day-stepped starts
stay below the range end (and the iteration budget suffices), the emitted
starts are exactly the arithmetic progression of days. -/
theorem expandLoop_daily_range (ev : CalendarEvent)
    (h1 : ev.recurrence = RecurrenceType.daily) (S E R : Nat) (dur : Int)
    (hER : E ≤ R) :
    ∀ (n fuel cs it : Nat),
      (∀ j, j < n → cs + j * 86400000 < E) →
      ¬ (cs + n * 86400000 < E) →
      n < fuel → it + n ≤ 365 →
      (∀ j, j < n → isAfter (cs + j * 86400000) S ∨ isSameDay (cs + j * 86400000) S) →
      (expandLoop ev S E R dur fuel cs it).1.map (fun e => e.start) =
        (List.range n).map (fun k => cs + k * 86400000) := by
  intro n
  induction n with
  | zero =>
    intro fuel cs it hin hout hfuel hit hemit
    rw [expandLoop_stop ev S E R dur fuel cs it]
    · rfl
    · intro hcon
      exact hout (by simpa [isBefore] using hcon.1)
  | succ n ih =>
    intro fuel cs it hin hout hfuel hit hemit
    obtain ⟨fuel, rfl⟩ : ∃ f, fuel = f + 1 := ⟨fuel - 1, by omega⟩
    have hcs0 : cs < E := by
      have hx := hin 0 (by omega)
      simpa using hx
    rw [expandLoop_daily_step ev h1 S E R dur fuel cs it hcs0
      (lt_of_lt_of_le hcs0 hER) (by omega)
      ((hemit 0 (by omega)).elim (fun h => Or.inl (by simpa using h))
        (fun h => Or.inr (Or.inl (by simpa using h))))]
    have ihx := ih fuel (cs + msPerDay) (it + 1)
      (fun j hj => by
        have hx := hin (j + 1) (by omega)
        simp only [msPerDay]
        omega)
      (by
        simp only [msPerDay]
        omega)
      (by omega) (by omega)
      (fun j hj => by
        have hx := hemit (j + 1) (by omega)
        have harith : cs + (j + 1) * 86400000 = cs + msPerDay + j * 86400000 := by
          simp only [msPerDay]
          omega
        rw [harith] at hx
        exact hx)
    simp only [List.map_cons, mkInstance_start, ihx, List.range_succ_eq_map,
      List.map_map]
    refine congrArg (cs :: ·) (List.map_congr_left ?_)
    intro k hk
    simp only [Function.comp, msPerDay]
    omega

/-- Specialisation: from the event start over the closed seven-day range,
the daily loop emits exactly the 7 day-stepped starts (event start not at
the last millisecond of its day). -/
theorem expandLoop_daily_seven (ev : CalendarEvent)
    (h1 : ev.recurrence = RecurrenceType.daily) (t S E R : Nat) (dur : Int)
    (hS : S = t / 86400000 * 86400000)
    (hE : E = t / 86400000 * 86400000 + 6 * 86400000 + 86399999)
    (hER : E ≤ R) (hts : t % 86400000 < 86399999) :
    (expandLoop ev S E R dur 366 t 0).1.map (fun e => e.start) =
      (List.range 7).map (fun k => t + k * 86400000) := by
  refine expandLoop_daily_range ev h1 S E R dur hER 7 366 t 0 ?_ ?_ (by omega)
    (by omega) ?_
  · intro j hj; omega
  · omega
  · intro j hj
    rcases Nat.eq_zero_or_pos j with rfl | hj0
    · refine Or.inr ?_
      simp only [isSameDay, msPerDay]
      omega
    · refine Or.inl ?_
      simp only [isAfter, gt_iff_lt]
      omega

/-- Claim C5 (status: corrected).  For a daily event with no
`recurrenceEnd`, expansion over the closed seven-day range starting at the
event's start day (`[startOfDay start, endOfDay (start day + 6 days)]`,
both ends inclusive) returns exactly 7 occurrences whose starts are
exactly 1 day apart — provided the event does not start at the very last
millisecond of its day (23:59:59.999).  At that boundary instant the 7th
occurrence start equals the range end and the strict `isBefore` loop guard
drops it (see the counterexample), which is the only amendment the
counterexample forces. -/
theorem claim_C5_amended (ev : CalendarEvent)
    (h1 : ev.recurrence = RecurrenceType.daily) (h2 : ev.recurrenceEnd = none)
    (h3 : ev.start % msPerDay < msPerDay - 1) :
    ((expandRecurringEvent ev (startOfDay ev.start)
        (endOfDay (addDays (startOfDay ev.start) 6))).map (fun e => e.start)) =
      (List.range 7).map (fun k => ev.start + k * msPerDay) ∧
    (expandRecurringEvent ev (startOfDay ev.start)
        (endOfDay (addDays (startOfDay ev.start) 6))).length = 7 := by
  have hrE : expandRecurringEvent ev (startOfDay ev.start)
      (endOfDay (addDays (startOfDay ev.start) 6)) =
      (expandLoop ev (startOfDay ev.start)
        (endOfDay (addDays (startOfDay ev.start) 6))
        (addYears (endOfDay (addDays (startOfDay ev.start) 6)) 1)
        (differenceInMinutes ev.«end» ev.start) 366 ev.start 0).1 := by
    unfold expandRecurringEvent
    rw [if_neg (by rw [h1]; exact fun hcon => RecurrenceType.noConfusion hcon)]
    simp only [recurrenceEndOf, h2]
  have hmain := expandLoop_daily_seven ev h1 ev.start (startOfDay ev.start)
    (endOfDay (addDays (startOfDay ev.start) 6))
    (addYears (endOfDay (addDays (startOfDay ev.start) 6)) 1)
    (differenceInMinutes ev.«end» ev.start) rfl
    (by simp only [startOfDay, endOfDay, addDays, msPerDay]; omega)
    (le_addYears_one _) (by simp only [msPerDay] at h3; omega)
  constructor
  · rw [hrE]
    simpa only [msPerDay] using hmain
  · have hlen := congrArg List.length hmain
    simp only [List.length_map, List.length_range] at hlen
    rw [hrE]
    exact hlen

/-- Counterexample for C5 as literally stated: a daily event starting at
2024-01-01T23:59:59.999 expanded over its closed seven-day range yields
only 6 occurrences, not 7. -/
theorem claim_C5_counterexample :
    evLastMs.recurrence = RecurrenceType.daily ∧ evLastMs.recurrenceEnd = none ∧
    (expandRecurringEvent evLastMs (startOfDay evLastMs.start)
        (endOfDay (addDays (startOfDay evLastMs.start) 6))).length = 6 ∧
    (expandRecurringEvent evLastMs (startOfDay evLastMs.start)
        (endOfDay (addDays (startOfDay evLastMs.start) 6))).length ≠ 7 := by
  decide

/-- Witness for C5: the amended statement applied to the 09:30 daily
event. -/
theorem claim_C5_witness :
    ((expandRecurringEvent evDaily (startOfDay evDaily.start)
        (endOfDay (addDays (startOfDay evDaily.start) 6))).map (fun e => e.start)) =
      (List.range 7).map (fun k => evDaily.start + k * msPerDay) ∧
    (expandRecurringEvent evDaily (startOfDay evDaily.start)
        (endOfDay (addDays (startOfDay evDaily.start) 6))).length = 7 :=
  claim_C5_amended evDaily rfl rfl (by decide)

/-- Witness for C10: a soft-deleted midnight event in range is still
returned by the expander, yet `getEventsForDay` drops it. -/
theorem claim_C10_witness :
    expandRecurringEvent evDeleted (startOfDay (tsOf 2024 3 10 0 0))
      (endOfDay (tsOf 2024 3 10 0 0)) = [evDeleted] ∧
    getEventsForDay [evDeleted] (tsOf 2024 3 10 0 0) ["cal"] = [] :=
  ⟨(claim_C10_filter_in_callers evDeleted (startOfDay (tsOf 2024 3 10 0 0))
      (endOfDay (tsOf 2024 3 10 0 0)) (tsOf 2024 3 10 0 0) ["cal"] rfl
      (by decide) (by decide)).1,
   (claim_C10_filter_in_callers evDeleted (startOfDay (tsOf 2024 3 10 0 0))
      (endOfDay (tsOf 2024 3 10 0 0)) (tsOf 2024 3 10 0 0) ["cal"] rfl
      (by decide) (by decide)).2.1 rfl⟩

end MyFamPlan
